import Mathlib

/-!
Shallow embedding of the transaction-processing core of `tx-cli`
(`src/model/account.rs`, `src/model/transaction.rs`, `src/rules.rs`),
with theorems settling the specification claims about it.

Monetary values (`rust_decimal::Decimal`) are modelled as `ℚ`: the crate's
add/subtract/compare on amounts at scale ≤ 4 are exact, matching rational
arithmetic.  The `HashMap<u32, Decimal>` deposit index is modelled as an
association list with first-match lookup (insert = cons, so last write wins,
as for `HashMap::insert`); the `HashSet<u32>` of active disputes as a
duplicate-free list.
-/

/-- `TransactionType` from `src/model/transaction.rs`. -/
inductive TransactionType where
  | Deposit
  | Withdrawal
  | Dispute
  | Resolve
  | Chargeback
  deriving DecidableEq, Repr

/-- `Transaction` from the final iteration of `src/model/transaction.rs`:
the amount is optional (absent for dispute/resolve/chargeback records),
as required by `Account::process_transaction` and its tests. -/
structure Transaction where
  type : TransactionType
  client : ℕ
  tx : ℕ
  amount : Option ℚ
  deriving DecidableEq, Repr

/-- `RuleError` from `src/rules.rs` (final iteration adds `MissingAmount`,
which `src/model/account.rs` and its tests use). Field spellings follow
the source (`InsuficientFunds`, `TrasactionNotOnDispute`). -/
inductive RuleError where
  | AccountFrozen
  | InsuficientFunds
  | MissingAmount (tx : ℕ)
  | DepositNotFound (tx : ℕ)
  | TrasactionNotOnDispute (tx : ℕ)
  deriving DecidableEq, Repr

/-- `AccountError` from `src/model/account.rs`. -/
inductive AccountError where
  | MismatchingAccounts (actual incoming : ℕ)
  | RuleViolation (e : RuleError)
  deriving DecidableEq, Repr

/-- `Account` from `src/model/account.rs`: balances, frozen flag, the
deposit-amount index and the active-dispute set. -/
structure Account where
  client : ℕ
  available : ℚ
  held : ℚ
  frozen : Bool
  deposits : List (ℕ × ℚ)
  disputes : List ℕ
  deriving DecidableEq, Repr

/-- `Account::new` (`Default` gives zero balances, unfrozen, empty indices). -/
def Account.new (client : ℕ) : Account :=
  { client := client, available := 0, held := 0, frozen := false,
    deposits := [], disputes := [] }

/-- `Account::total`: available + held. -/
def Account.total (a : Account) : ℚ :=
  a.available + a.held

/-- `Account::find_deposit`: amount of a prior accepted deposit, if any. -/
def Account.find_deposit (a : Account) (txId : ℕ) : Option ℚ :=
  a.deposits.lookup txId

/-- `Account::has_dispute`: membership test against the active-dispute set
(the source returns `Option<&u32>`; `Bool` carries the same information). -/
def Account.has_dispute (a : Account) (txId : ℕ) : Bool :=
  a.disputes.contains txId

/-- `rules::check_not_frozen` (`src/rules.rs`). -/
def check_not_frozen (a : Account) : Except RuleError Unit :=
  if a.frozen then .error .AccountFrozen else .ok ()

/-- `rules::check_sufficient_funds` (`src/rules.rs`). -/
def check_sufficient_funds (a : Account) (amount : ℚ) : Except RuleError Unit :=
  if a.available < amount then .error .InsuficientFunds else .ok ()

/-- Modelled from the spec: `rules::require_amount` of the final iteration
(only its callers and tests are in the snapshot).  Per the spec's rule table,
a Deposit/Withdrawal without an amount fails with `MissingAmount(tx_id)`;
otherwise the amount is returned. -/
def require_amount (txId : ℕ) (amount : Option ℚ) : Except RuleError ℚ :=
  match amount with
  | some a => .ok a
  | none => .error (.MissingAmount txId)

/-- Modelled from the spec: `rules::get_deposit_amount` of the final,
index-based iteration (the snapshot's `src/rules.rs` holds the older
history-scanning body).  Per the spec, it looks the `tx_id` up in the
account's deposit index and fails with `DepositNotFound(tx_id)` when absent;
`Account::find_deposit` is the lookup the final `account.rs` provides for it. -/
def get_deposit_amount (a : Account) (txId : ℕ) : Except RuleError ℚ :=
  match a.find_deposit txId with
  | some amt => .ok amt
  | none => .error (.DepositNotFound txId)

/-- Modelled from the spec: `rules::check_dispute_exists` of the final,
set-based iteration.  Per the spec's rule table it tests membership of
`tx_id` in `active_disputes`, failing with `TrasactionNotOnDispute(tx_id)`
when absent.  (The older body also re-checked the deposit index first; every
caller in `account.rs` calls `get_deposit_amount` beforehand, so the two are
observationally equal at every call site.) -/
def check_dispute_exists (a : Account) (txId : ℕ) : Except RuleError Unit :=
  if a.has_dispute txId then .ok () else .error (.TrasactionNotOnDispute txId)

/-- Insertion into the active-dispute set (`HashSet::insert`): no duplicates. -/
def insertDispute (l : List ℕ) (t : ℕ) : List ℕ :=
  if t ∈ l then l else t :: l

/-- Removal from the active-dispute set (`HashSet::remove`). -/
def removeDispute (l : List ℕ) (t : ℕ) : List ℕ :=
  l.filter (fun x => x ≠ t)

/-- `Account::deposit`: requires the amount, then increases `available` and
records the deposit in the index.  On failure the account is returned as the
source leaves it (here: untouched, since the check precedes every mutation). -/
def Account.deposit (a : Account) (tx : Transaction) : Account × Option RuleError :=
  match require_amount tx.tx tx.amount with
  | .error e => (a, some e)
  | .ok amount =>
      ({ a with available := a.available + amount,
                deposits := (tx.tx, amount) :: a.deposits }, none)

/-- `Account::withdrawal`: requires the amount and sufficient funds, then
decreases `available`. -/
def Account.withdrawal (a : Account) (tx : Transaction) : Account × Option RuleError :=
  match require_amount tx.tx tx.amount with
  | .error e => (a, some e)
  | .ok amount =>
      match check_sufficient_funds a amount with
      | .error e => (a, some e)
      | .ok _ => ({ a with available := a.available - amount }, none)

/-- `Account::dispute`: looks the deposit up, then moves its amount from
`available` to `held` and marks the `tx_id` disputed. -/
def Account.dispute (a : Account) (tx : Transaction) : Account × Option RuleError :=
  match get_deposit_amount a tx.tx with
  | .error e => (a, some e)
  | .ok amount =>
      ({ a with available := a.available - amount,
                held := a.held + amount,
                disputes := insertDispute a.disputes tx.tx }, none)

/-- `Account::resolve`: looks the deposit up, checks the dispute exists, then
moves the amount back from `held` to `available` and clears the dispute. -/
def Account.resolve (a : Account) (tx : Transaction) : Account × Option RuleError :=
  match get_deposit_amount a tx.tx with
  | .error e => (a, some e)
  | .ok amount =>
      match check_dispute_exists a tx.tx with
      | .error e => (a, some e)
      | .ok _ =>
          ({ a with held := a.held - amount,
                    available := a.available + amount,
                    disputes := removeDispute a.disputes tx.tx }, none)

/-- `Account::chargeback`: looks the deposit up, checks the dispute exists,
then removes the held amount, freezes the account and clears the dispute. -/
def Account.chargeback (a : Account) (tx : Transaction) : Account × Option RuleError :=
  match get_deposit_amount a tx.tx with
  | .error e => (a, some e)
  | .ok amount =>
      match check_dispute_exists a tx.tx with
      | .error e => (a, some e)
      | .ok _ =>
          ({ a with held := a.held - amount,
                    frozen := true,
                    disputes := removeDispute a.disputes tx.tx }, none)

/-- `Account::process_transaction`: client-id guard, frozen guard, then
dispatch by transaction kind; rule failures are wrapped in `RuleViolation`. -/
def Account.process_transaction (a : Account) (tx : Transaction) :
    Account × Option AccountError :=
  if a.client ≠ tx.client then
    (a, some (.MismatchingAccounts a.client tx.client))
  else
    match check_not_frozen a with
    | .error e => (a, some (.RuleViolation e))
    | .ok _ =>
        match tx.type with
        | .Deposit => ((a.deposit tx).1, (a.deposit tx).2.map .RuleViolation)
        | .Withdrawal => ((a.withdrawal tx).1, (a.withdrawal tx).2.map .RuleViolation)
        | .Dispute => ((a.dispute tx).1, (a.dispute tx).2.map .RuleViolation)
        | .Resolve => ((a.resolve tx).1, (a.resolve tx).2.map .RuleViolation)
        | .Chargeback => ((a.chargeback tx).1, (a.chargeback tx).2.map .RuleViolation)

/-- The runner's fold over one client's transaction stream (`main.rs`):
each record is applied through `process_transaction`; a per-record failure
is reported and the fold continues with the account as the call left it. -/
def processAll (a : Account) (txs : List Transaction) : Account :=
  txs.foldl (fun acc tx => (acc.process_transaction tx).1) a

/-! ### Characterisation lemmas for the per-kind operations -/

lemma deposit_ok (a : Account) (tx : Transaction) (amt : ℚ)
    (h : tx.amount = some amt) :
    a.deposit tx =
      ({ a with available := a.available + amt,
                deposits := (tx.tx, amt) :: a.deposits }, none) := by
  simp [Account.deposit, require_amount, h]

lemma deposit_missing (a : Account) (tx : Transaction)
    (h : tx.amount = none) :
    a.deposit tx = (a, some (.MissingAmount tx.tx)) := by
  simp [Account.deposit, require_amount, h]

lemma withdrawal_ok (a : Account) (tx : Transaction) (amt : ℚ)
    (h : tx.amount = some amt) (hs : amt ≤ a.available) :
    a.withdrawal tx = ({ a with available := a.available - amt }, none) := by
  simp [Account.withdrawal, require_amount, h, check_sufficient_funds, not_lt.2 hs]

lemma withdrawal_insufficient (a : Account) (tx : Transaction) (amt : ℚ)
    (h : tx.amount = some amt) (hs : a.available < amt) :
    a.withdrawal tx = (a, some .InsuficientFunds) := by
  simp [Account.withdrawal, require_amount, h, check_sufficient_funds, hs]

lemma dispute_ok (a : Account) (tx : Transaction) (amt : ℚ)
    (h : a.find_deposit tx.tx = some amt) :
    a.dispute tx =
      ({ a with available := a.available - amt,
                held := a.held + amt,
                disputes := insertDispute a.disputes tx.tx }, none) := by
  simp [Account.dispute, get_deposit_amount, h]

lemma resolve_ok (a : Account) (tx : Transaction) (amt : ℚ)
    (h : a.find_deposit tx.tx = some amt) (hd : a.has_dispute tx.tx = true) :
    a.resolve tx =
      ({ a with held := a.held - amt,
                available := a.available + amt,
                disputes := removeDispute a.disputes tx.tx }, none) := by
  simp [Account.resolve, get_deposit_amount, h, check_dispute_exists, hd]

lemma resolve_not_disputed (a : Account) (tx : Transaction) (amt : ℚ)
    (h : a.find_deposit tx.tx = some amt) (hd : a.has_dispute tx.tx = false) :
    a.resolve tx = (a, some (.TrasactionNotOnDispute tx.tx)) := by
  simp [Account.resolve, get_deposit_amount, h, check_dispute_exists, hd]

lemma chargeback_ok (a : Account) (tx : Transaction) (amt : ℚ)
    (h : a.find_deposit tx.tx = some amt) (hd : a.has_dispute tx.tx = true) :
    a.chargeback tx =
      ({ a with held := a.held - amt,
                frozen := true,
                disputes := removeDispute a.disputes tx.tx }, none) := by
  simp [Account.chargeback, get_deposit_amount, h, check_dispute_exists, hd]

lemma dispute_no_deposit (a : Account) (tx : Transaction)
    (h : a.find_deposit tx.tx = none) :
    a.dispute tx = (a, some (.DepositNotFound tx.tx)) := by
  simp [Account.dispute, get_deposit_amount, h]

lemma resolve_no_deposit (a : Account) (tx : Transaction)
    (h : a.find_deposit tx.tx = none) :
    a.resolve tx = (a, some (.DepositNotFound tx.tx)) := by
  simp [Account.resolve, get_deposit_amount, h]

lemma chargeback_no_deposit (a : Account) (tx : Transaction)
    (h : a.find_deposit tx.tx = none) :
    a.chargeback tx = (a, some (.DepositNotFound tx.tx)) := by
  simp [Account.chargeback, get_deposit_amount, h]

/-- Dispatch shape of `process_transaction` when both cross-cutting guards
pass: the result is the per-kind operation's, rule errors wrapped. -/
lemma process_transaction_dispatch (a : Account) (tx : Transaction)
    (hc : a.client = tx.client) (hf : a.frozen = false) :
    a.process_transaction tx =
      (match tx.type with
        | .Deposit => ((a.deposit tx).1, (a.deposit tx).2.map .RuleViolation)
        | .Withdrawal => ((a.withdrawal tx).1, (a.withdrawal tx).2.map .RuleViolation)
        | .Dispute => ((a.dispute tx).1, (a.dispute tx).2.map .RuleViolation)
        | .Resolve => ((a.resolve tx).1, (a.resolve tx).2.map .RuleViolation)
        | .Chargeback => ((a.chargeback tx).1, (a.chargeback tx).2.map .RuleViolation)) := by
  simp [Account.process_transaction, hc, check_not_frozen, hf]

lemma process_transaction_frozen (a : Account) (tx : Transaction)
    (hc : a.client = tx.client) (hf : a.frozen = true) :
    a.process_transaction tx = (a, some (.RuleViolation .AccountFrozen)) := by
  simp [Account.process_transaction, hc, check_not_frozen, hf]

lemma process_transaction_mismatch (a : Account) (tx : Transaction)
    (hc : a.client ≠ tx.client) :
    a.process_transaction tx = (a, some (.MismatchingAccounts a.client tx.client)) := by
  simp [Account.process_transaction, hc]

/-- Each per-kind operation leaves the account untouched on failure. -/
lemma op_error_unchanged (a : Account) (tx : Transaction) :
    ∀ p e, ((a.deposit tx = (p, some e)) ∨ (a.withdrawal tx = (p, some e)) ∨
            (a.dispute tx = (p, some e)) ∨ (a.resolve tx = (p, some e)) ∨
            (a.chargeback tx = (p, some e))) → p = a := by
  intro p e h
  rcases h with h | h | h | h | h <;>
    · first
      | (unfold Account.deposit at h; split at h <;> simp_all)
      | (unfold Account.withdrawal at h;
         split at h <;> [skip; split at h] <;> simp_all)
      | (unfold Account.dispute at h; split at h <;> simp_all)
      | (unfold Account.resolve at h;
         split at h <;> [skip; split at h] <;> simp_all)
      | (unfold Account.chargeback at h;
         split at h <;> [skip; split at h] <;> simp_all)

/-! ### Inversion lemmas: what a successful operation implies -/

lemma require_amount_ok_inv {txId : ℕ} {am : Option ℚ} {amt : ℚ}
    (h : require_amount txId am = .ok amt) : am = some amt := by
  unfold require_amount at h
  cases am <;> simp_all

lemma get_deposit_amount_ok_inv {a : Account} {txId : ℕ} {amt : ℚ}
    (h : get_deposit_amount a txId = .ok amt) : a.find_deposit txId = some amt := by
  unfold get_deposit_amount at h
  cases hd : a.find_deposit txId <;> simp_all

lemma check_sufficient_funds_ok_inv {a : Account} {amt : ℚ} {u : Unit}
    (h : check_sufficient_funds a amt = .ok u) : amt ≤ a.available := by
  unfold check_sufficient_funds at h
  split at h <;> simp_all

lemma check_dispute_exists_ok_inv {a : Account} {txId : ℕ} {u : Unit}
    (h : check_dispute_exists a txId = .ok u) : a.has_dispute txId = true := by
  unfold check_dispute_exists at h
  split at h <;> simp_all

lemma pair_eq_of_proj {α β : Type} {x : α × β} {a : α} {b : β}
    (h1 : x.1 = a) (h2 : x.2 = b) : x = (a, b) := by
  rw [← h1, ← h2]

lemma deposit_ok_inv {a : Account} {tx : Transaction} {b : Account}
    (h : a.deposit tx = (b, none)) :
    ∃ amt, tx.amount = some amt ∧
      b = { a with available := a.available + amt,
                   deposits := (tx.tx, amt) :: a.deposits } := by
  unfold Account.deposit at h
  split at h
  · exact absurd (congrArg Prod.snd h) (by simp)
  · next amt heq =>
      injection h with h1 h2
      exact ⟨amt, require_amount_ok_inv heq, h1.symm⟩

lemma withdrawal_ok_inv {a : Account} {tx : Transaction} {b : Account}
    (h : a.withdrawal tx = (b, none)) :
    ∃ amt, tx.amount = some amt ∧ amt ≤ a.available ∧
      b = { a with available := a.available - amt } := by
  unfold Account.withdrawal at h
  split at h
  · exact absurd (congrArg Prod.snd h) (by simp)
  · next amt heq =>
      split at h
      · exact absurd (congrArg Prod.snd h) (by simp)
      · next u hchk =>
          injection h with h1 h2
          exact ⟨amt, require_amount_ok_inv heq,
                 check_sufficient_funds_ok_inv hchk, h1.symm⟩

lemma dispute_ok_inv {a : Account} {tx : Transaction} {b : Account}
    (h : a.dispute tx = (b, none)) :
    ∃ amt, a.find_deposit tx.tx = some amt ∧
      b = { a with available := a.available - amt,
                   held := a.held + amt,
                   disputes := insertDispute a.disputes tx.tx } := by
  unfold Account.dispute at h
  split at h
  · exact absurd (congrArg Prod.snd h) (by simp)
  · next amt heq =>
      injection h with h1 h2
      exact ⟨amt, get_deposit_amount_ok_inv heq, h1.symm⟩

lemma resolve_ok_inv {a : Account} {tx : Transaction} {b : Account}
    (h : a.resolve tx = (b, none)) :
    ∃ amt, a.find_deposit tx.tx = some amt ∧ a.has_dispute tx.tx = true ∧
      b = { a with held := a.held - amt,
                   available := a.available + amt,
                   disputes := removeDispute a.disputes tx.tx } := by
  unfold Account.resolve at h
  split at h
  · exact absurd (congrArg Prod.snd h) (by simp)
  · next amt heq =>
      split at h
      · exact absurd (congrArg Prod.snd h) (by simp)
      · next u hchk =>
          injection h with h1 h2
          exact ⟨amt, get_deposit_amount_ok_inv heq,
                 check_dispute_exists_ok_inv hchk, h1.symm⟩

lemma chargeback_ok_inv {a : Account} {tx : Transaction} {b : Account}
    (h : a.chargeback tx = (b, none)) :
    ∃ amt, a.find_deposit tx.tx = some amt ∧ a.has_dispute tx.tx = true ∧
      b = { a with held := a.held - amt,
                   frozen := true,
                   disputes := removeDispute a.disputes tx.tx } := by
  unfold Account.chargeback at h
  split at h
  · exact absurd (congrArg Prod.snd h) (by simp)
  · next amt heq =>
      split at h
      · exact absurd (congrArg Prod.snd h) (by simp)
      · next u hchk =>
          injection h with h1 h2
          exact ⟨amt, get_deposit_amount_ok_inv heq,
                 check_dispute_exists_ok_inv hchk, h1.symm⟩

/-- A successfully processed transaction passed both cross-cutting guards. -/
lemma process_ok_guards {a : Account} {tx : Transaction} {b : Account}
    (h : a.process_transaction tx = (b, none)) :
    a.client = tx.client ∧ a.frozen = false := by
  constructor
  · by_contra hc
    rw [process_transaction_mismatch a tx hc] at h
    exact absurd (congrArg Prod.snd h) (by simp)
  · cases hf : a.frozen
    · rfl
    · by_cases hc : a.client = tx.client
      · rw [process_transaction_frozen a tx hc hf] at h
        exact absurd (congrArg Prod.snd h) (by simp)
      · rw [process_transaction_mismatch a tx hc] at h
        exact absurd (congrArg Prod.snd h) (by simp)

/-! ### Claim C2 -/

/-- Any failing `process_transaction` call returns the input account. -/
lemma process_error_unchanged (a : Account) (tx : Transaction)
    (p : Account) (e : AccountError)
    (h : a.process_transaction tx = (p, some e)) : p = a := by
  unfold Account.process_transaction at h
  split at h
  · injection h with h1 h2
    exact h1.symm
  · split at h
    · injection h with h1 h2
      exact h1.symm
    · split at h <;>
        · injection h with h1 h2
          rcases Option.map_eq_some'.1 h2 with ⟨e0, he0, rfl⟩
          refine op_error_unchanged a tx p e0 ?_
          first
          | exact Or.inl (pair_eq_of_proj h1 he0)
          | exact Or.inr (Or.inl (pair_eq_of_proj h1 he0))
          | exact Or.inr (Or.inr (Or.inl (pair_eq_of_proj h1 he0)))
          | exact Or.inr (Or.inr (Or.inr (Or.inl (pair_eq_of_proj h1 he0))))
          | exact Or.inr (Or.inr (Or.inr (Or.inr (pair_eq_of_proj h1 he0))))

/-- C2: whenever `process_transaction` returns any failure, the account state
after the call (balances, frozen flag, deposit index, active-dispute set) is
exactly the state before the call — no partial mutation. -/
theorem C2_failure_leaves_account_unchanged (a : Account) (tx : Transaction)
    (p : Account) (e : AccountError)
    (h : a.process_transaction tx = (p, some e)) : p = a :=
  process_error_unchanged a tx p e h

/-- Witness for C2: a withdrawal from a frozen account fails and the
returned state is the input state. -/
theorem C2_witness :
    (Account.mk 7 4 0 true [(1, 4)] []).process_transaction
        ⟨.Withdrawal, 7, 2, some 3⟩
      = (((Account.mk 7 4 0 true [(1, 4)] []).process_transaction
            ⟨.Withdrawal, 7, 2, some 3⟩).1,
         some (.RuleViolation .AccountFrozen)) ∧
    ((Account.mk 7 4 0 true [(1, 4)] []).process_transaction
        ⟨.Withdrawal, 7, 2, some 3⟩).1 = Account.mk 7 4 0 true [(1, 4)] [] :=
  ⟨rfl,
   C2_failure_leaves_account_unchanged (Account.mk 7 4 0 true [(1, 4)] [])
     ⟨.Withdrawal, 7, 2, some 3⟩ _ (.RuleViolation .AccountFrozen) rfl⟩

/-! ### Claim C3 -/

/-- One step of the runner's fold never changes a frozen account. -/
lemma frozen_step (a : Account) (tx : Transaction) (hf : a.frozen = true) :
    (a.process_transaction tx).1 = a := by
  by_cases hc : a.client = tx.client
  · rw [process_transaction_frozen a tx hc hf]
  · rw [process_transaction_mismatch a tx hc]

/-- The whole remaining stream leaves a frozen account untouched. -/
lemma processAll_frozen (a : Account) (txs : List Transaction)
    (hf : a.frozen = true) : processAll a txs = a := by
  induction txs with
  | nil => rfl
  | cons t ts ih =>
      unfold processAll at ih ⊢
      rw [List.foldl_cons, frozen_step a t hf]
      exact ih

/-- C3: every transaction naming a frozen account's client id fails with
`AccountFrozen` and leaves the account unchanged; consequently a frozen
account's state never changes again for the rest of the run. -/
theorem C3_frozen_account_never_changes (a : Account) (tx : Transaction)
    (txs : List Transaction) (hf : a.frozen = true) :
    (tx.client = a.client →
        a.process_transaction tx = (a, some (.RuleViolation .AccountFrozen))) ∧
      processAll a txs = a := by
  constructor
  · intro hc
    exact process_transaction_frozen a tx hc.symm hf
  · exact processAll_frozen a txs hf

/-- Witness for C3: a frozen account rejects a deposit with `AccountFrozen`
and is untouched by a further stream of transactions. -/
theorem C3_witness :
    (Account.mk 1 0 5 true [(1, 5)] []).frozen = true ∧
    (((⟨.Deposit, 1, 2, some 3⟩ : Transaction).client
          = (Account.mk 1 0 5 true [(1, 5)] []).client →
        (Account.mk 1 0 5 true [(1, 5)] []).process_transaction
            ⟨.Deposit, 1, 2, some 3⟩
          = (Account.mk 1 0 5 true [(1, 5)] [],
             some (.RuleViolation .AccountFrozen))) ∧
      processAll (Account.mk 1 0 5 true [(1, 5)] [])
          [⟨.Withdrawal, 1, 3, some 1⟩, ⟨.Resolve, 1, 1, none⟩]
        = Account.mk 1 0 5 true [(1, 5)] []) :=
  ⟨rfl,
   C3_frozen_account_never_changes (Account.mk 1 0 5 true [(1, 5)] [])
     ⟨.Deposit, 1, 2, some 3⟩
     [⟨.Withdrawal, 1, 3, some 1⟩, ⟨.Resolve, 1, 1, none⟩] rfl⟩

/-! ### Reducing a successful `process_transaction` to its per-kind operation -/

lemma process_ok_deposit {a : Account} {tx : Transaction} {b : Account}
    (hc : a.client = tx.client) (hf : a.frozen = false)
    (ht : tx.type = .Deposit) (h : a.process_transaction tx = (b, none)) :
    a.deposit tx = (b, none) := by
  rw [process_transaction_dispatch a tx hc hf] at h
  simp only [ht] at h
  exact pair_eq_of_proj (congrArg Prod.fst h)
    (Option.map_eq_none'.1 (congrArg Prod.snd h))

lemma process_ok_withdrawal {a : Account} {tx : Transaction} {b : Account}
    (hc : a.client = tx.client) (hf : a.frozen = false)
    (ht : tx.type = .Withdrawal) (h : a.process_transaction tx = (b, none)) :
    a.withdrawal tx = (b, none) := by
  rw [process_transaction_dispatch a tx hc hf] at h
  simp only [ht] at h
  exact pair_eq_of_proj (congrArg Prod.fst h)
    (Option.map_eq_none'.1 (congrArg Prod.snd h))

lemma process_ok_dispute {a : Account} {tx : Transaction} {b : Account}
    (hc : a.client = tx.client) (hf : a.frozen = false)
    (ht : tx.type = .Dispute) (h : a.process_transaction tx = (b, none)) :
    a.dispute tx = (b, none) := by
  rw [process_transaction_dispatch a tx hc hf] at h
  simp only [ht] at h
  exact pair_eq_of_proj (congrArg Prod.fst h)
    (Option.map_eq_none'.1 (congrArg Prod.snd h))

lemma process_ok_resolve {a : Account} {tx : Transaction} {b : Account}
    (hc : a.client = tx.client) (hf : a.frozen = false)
    (ht : tx.type = .Resolve) (h : a.process_transaction tx = (b, none)) :
    a.resolve tx = (b, none) := by
  rw [process_transaction_dispatch a tx hc hf] at h
  simp only [ht] at h
  exact pair_eq_of_proj (congrArg Prod.fst h)
    (Option.map_eq_none'.1 (congrArg Prod.snd h))

lemma process_ok_chargeback {a : Account} {tx : Transaction} {b : Account}
    (hc : a.client = tx.client) (hf : a.frozen = false)
    (ht : tx.type = .Chargeback) (h : a.process_transaction tx = (b, none)) :
    a.chargeback tx = (b, none) := by
  rw [process_transaction_dispatch a tx hc hf] at h
  simp only [ht] at h
  exact pair_eq_of_proj (congrArg Prod.fst h)
    (Option.map_eq_none'.1 (congrArg Prod.snd h))

/-! ### Claim C1 -/

/-- C1: after every successfully applied transaction, `total = available +
held`, and the change to `total` is `+amount` for a Deposit, `-amount` for a
Withdrawal, `-disputed deposit amount` for a Chargeback, and zero for a
Dispute or a Resolve. -/
theorem C1_total_conservation (a : Account) (tx : Transaction) (b : Account)
    (h : a.process_transaction tx = (b, none)) :
    b.total = b.available + b.held ∧
    (tx.type = .Deposit →
      ∃ amt, tx.amount = some amt ∧ b.total = a.total + amt) ∧
    (tx.type = .Withdrawal →
      ∃ amt, tx.amount = some amt ∧ b.total = a.total - amt) ∧
    (tx.type = .Chargeback →
      ∃ amt, a.find_deposit tx.tx = some amt ∧ b.total = a.total - amt) ∧
    ((tx.type = .Dispute ∨ tx.type = .Resolve) → b.total = a.total) := by
  obtain ⟨hc, hf⟩ := process_ok_guards h
  refine ⟨rfl, ?_, ?_, ?_, ?_⟩
  · intro ht
    obtain ⟨amt, ham, hb⟩ := deposit_ok_inv (process_ok_deposit hc hf ht h)
    refine ⟨amt, ham, ?_⟩
    subst hb
    simp only [Account.total]
    ring
  · intro ht
    obtain ⟨amt, ham, _, hb⟩ := withdrawal_ok_inv (process_ok_withdrawal hc hf ht h)
    refine ⟨amt, ham, ?_⟩
    subst hb
    simp only [Account.total]
    ring
  · intro ht
    obtain ⟨amt, hdep, _, hb⟩ := chargeback_ok_inv (process_ok_chargeback hc hf ht h)
    refine ⟨amt, hdep, ?_⟩
    subst hb
    simp only [Account.total]
    ring
  · rintro (ht | ht)
    · obtain ⟨amt, hdep, hb⟩ := dispute_ok_inv (process_ok_dispute hc hf ht h)
      subst hb
      simp only [Account.total]
      ring
    · obtain ⟨amt, hdep, _, hb⟩ := resolve_ok_inv (process_ok_resolve hc hf ht h)
      subst hb
      simp only [Account.total]
      ring

/-- Witness for C1: a deposit of 5 into a fresh account raises `total` by 5
and keeps `total = available + held`. -/
theorem C1_witness :
    ((Account.new 1).process_transaction ⟨.Deposit, 1, 1, some 5⟩
        = (((Account.new 1).process_transaction ⟨.Deposit, 1, 1, some 5⟩).1,
           none)) ∧
    (((Account.new 1).process_transaction ⟨.Deposit, 1, 1, some 5⟩).1.total
      = ((Account.new 1).process_transaction ⟨.Deposit, 1, 1, some 5⟩).1.available
        + ((Account.new 1).process_transaction ⟨.Deposit, 1, 1, some 5⟩).1.held) ∧
    (∃ amt, (⟨.Deposit, 1, 1, some 5⟩ : Transaction).amount = some amt ∧
      ((Account.new 1).process_transaction ⟨.Deposit, 1, 1, some 5⟩).1.total
        = (Account.new 1).total + amt) :=
  ⟨rfl,
   (C1_total_conservation (Account.new 1) ⟨.Deposit, 1, 1, some 5⟩ _ rfl).1,
   (C1_total_conservation (Account.new 1) ⟨.Deposit, 1, 1, some 5⟩ _ rfl).2.1 rfl⟩

/-! ### Claim C4 -/

/-- C4: on a non-frozen account, a withdrawal with an amount succeeds exactly
when `available >= amount` (including equality), decreasing `available` by the
amount and leaving everything else unchanged; otherwise it fails with
`InsuficientFunds`. -/
theorem C4_withdrawal_guard (a : Account) (tx : Transaction) (amt : ℚ)
    (hf : a.frozen = false) (hc : tx.client = a.client)
    (ht : tx.type = .Withdrawal) (ham : tx.amount = some amt) :
    (amt ≤ a.available →
      a.process_transaction tx
        = ({ a with available := a.available - amt }, none)) ∧
    (a.available < amt →
      a.process_transaction tx
        = (a, some (.RuleViolation .InsuficientFunds))) := by
  constructor
  · intro hle
    rw [process_transaction_dispatch a tx hc.symm hf]
    simp only [ht]
    rw [withdrawal_ok a tx amt ham hle]
    rfl
  · intro hlt
    rw [process_transaction_dispatch a tx hc.symm hf]
    simp only [ht]
    rw [withdrawal_insufficient a tx amt ham hlt]
    rfl

/-- Witness for C4: withdrawing the exact balance succeeds. -/
theorem C4_witness :
    (Account.mk 1 5 0 false [] []).frozen = false ∧
    (5 : ℚ) ≤ (Account.mk 1 5 0 false [] []).available ∧
    (Account.mk 1 5 0 false [] []).process_transaction ⟨.Withdrawal, 1, 9, some 5⟩
      = ({ Account.mk 1 5 0 false [] [] with
            available := (Account.mk 1 5 0 false [] []).available - 5 }, none) :=
  ⟨rfl, le_refl 5,
   (C4_withdrawal_guard (Account.mk 1 5 0 false [] []) ⟨.Withdrawal, 1, 9, some 5⟩
      5 rfl rfl rfl rfl).1 (le_refl 5)⟩

/-! ### Dispute-set membership lemmas -/

lemma contains_insertDispute (l : List ℕ) (t : ℕ) :
    (insertDispute l t).contains t = true := by
  unfold insertDispute
  split
  · next hmem => simpa using hmem
  · simp

lemma contains_removeDispute (l : List ℕ) (t : ℕ) :
    (removeDispute l t).contains t = false := by
  simp [removeDispute]


/-! ### Per-kind dispatch equations and literal-transaction runs -/

lemma process_dispute_eq (a : Account) (tx : Transaction)
    (hc : a.client = tx.client) (hf : a.frozen = false)
    (ht : tx.type = .Dispute) :
    a.process_transaction tx
      = ((a.dispute tx).1, (a.dispute tx).2.map .RuleViolation) := by
  rw [process_transaction_dispatch a tx hc hf]
  simp only [ht]

lemma process_resolve_eq (a : Account) (tx : Transaction)
    (hc : a.client = tx.client) (hf : a.frozen = false)
    (ht : tx.type = .Resolve) :
    a.process_transaction tx
      = ((a.resolve tx).1, (a.resolve tx).2.map .RuleViolation) := by
  rw [process_transaction_dispatch a tx hc hf]
  simp only [ht]

lemma process_chargeback_eq (a : Account) (tx : Transaction)
    (hc : a.client = tx.client) (hf : a.frozen = false)
    (ht : tx.type = .Chargeback) :
    a.process_transaction tx
      = ((a.chargeback tx).1, (a.chargeback tx).2.map .RuleViolation) := by
  rw [process_transaction_dispatch a tx hc hf]
  simp only [ht]

/-- A successful Dispute run, in closed form. -/
lemma process_dispute_literal (a : Account) (t : ℕ) (amt : ℚ)
    (hf : a.frozen = false) (hdep : a.find_deposit t = some amt) :
    a.process_transaction ⟨.Dispute, a.client, t, none⟩
      = ({ a with available := a.available - amt, held := a.held + amt, disputes := insertDispute a.disputes t }, none) := by
  rw [process_dispute_eq a ⟨.Dispute, a.client, t, none⟩ rfl hf rfl,
      dispute_ok a ⟨.Dispute, a.client, t, none⟩ amt hdep]
  rfl

/-- A successful Resolve run, in closed form. -/
lemma process_resolve_literal (a : Account) (t : ℕ) (amt : ℚ)
    (hf : a.frozen = false) (hdep : a.find_deposit t = some amt)
    (hdisp : a.has_dispute t = true) :
    a.process_transaction ⟨.Resolve, a.client, t, none⟩
      = ({ a with held := a.held - amt, available := a.available + amt, disputes := removeDispute a.disputes t }, none) := by
  rw [process_resolve_eq a ⟨.Resolve, a.client, t, none⟩ rfl hf rfl,
      resolve_ok a ⟨.Resolve, a.client, t, none⟩ amt hdep hdisp]
  rfl

/-- A Resolve of an undisputed `tx_id`, in closed form. -/
lemma process_resolve_fail_literal (a : Account) (t : ℕ) (amt : ℚ)
    (hf : a.frozen = false) (hdep : a.find_deposit t = some amt)
    (hdisp : a.has_dispute t = false) :
    a.process_transaction ⟨.Resolve, a.client, t, none⟩
      = (a, some (.RuleViolation (.TrasactionNotOnDispute t))) := by
  rw [process_resolve_eq a ⟨.Resolve, a.client, t, none⟩ rfl hf rfl,
      resolve_not_disputed a ⟨.Resolve, a.client, t, none⟩ amt hdep hdisp]
  rfl

/-! ### Claim C5 -/

/-- C5: a successful Dispute on a deposited `tx_id` immediately followed by a
successful Resolve of the same `tx_id` restores `available` and `held` to
their pre-dispute values, and `total()` is the same before the Dispute,
between the two, and after the Resolve. -/
theorem C5_dispute_resolve_roundtrip (a : Account) (t : ℕ) (amt : ℚ)
    (hf : a.frozen = false) (hdep : a.find_deposit t = some amt) :
    ∃ a1 a2 : Account,
      a.process_transaction ⟨.Dispute, a.client, t, none⟩ = (a1, none) ∧
      a1.process_transaction ⟨.Resolve, a.client, t, none⟩ = (a2, none) ∧
      a1.total = a.total ∧ a2.total = a.total ∧
      a2.available = a.available ∧ a2.held = a.held := by
  refine ⟨_, _, process_dispute_literal a t amt hf hdep,
    process_resolve_literal { a with available := a.available - amt, held := a.held + amt, disputes := insertDispute a.disputes t } t amt hf hdep (contains_insertDispute a.disputes t),
    ?_, ?_, ?_, ?_⟩
  · show (a.available - amt) + (a.held + amt) = a.available + a.held
    ring
  · show ((a.available - amt) + amt) + ((a.held + amt) - amt) = a.available + a.held
    ring
  · show (a.available - amt) + amt = a.available
    ring
  · show (a.held + amt) - amt = a.held
    ring

/-- Witness for C5: dispute then resolve of deposit 1 (amount 5) restores the
balances of an account holding 5 available. -/
theorem C5_witness :
    (Account.mk 1 5 0 false [(1, 5)] []).frozen = false ∧
    (Account.mk 1 5 0 false [(1, 5)] []).find_deposit 1 = some 5 ∧
    (∃ a1 a2 : Account,
      (Account.mk 1 5 0 false [(1, 5)] []).process_transaction
          ⟨.Dispute, (Account.mk 1 5 0 false [(1, 5)] []).client, 1, none⟩
        = (a1, none) ∧
      a1.process_transaction
          ⟨.Resolve, (Account.mk 1 5 0 false [(1, 5)] []).client, 1, none⟩
        = (a2, none) ∧
      a1.total = (Account.mk 1 5 0 false [(1, 5)] []).total ∧
      a2.total = (Account.mk 1 5 0 false [(1, 5)] []).total ∧
      a2.available = (Account.mk 1 5 0 false [(1, 5)] []).available ∧
      a2.held = (Account.mk 1 5 0 false [(1, 5)] []).held) :=
  ⟨rfl, rfl,
   C5_dispute_resolve_roundtrip (Account.mk 1 5 0 false [(1, 5)] []) 1 5 rfl rfl⟩

/-! ### Claim C6 -/

/-- C6: a Resolve succeeds only when its `tx_id` is in the active-dispute
set; success removes it, so an immediate second Resolve of the same `tx_id`
fails with `TrasactionNotOnDispute` and changes nothing; a successful
Chargeback likewise removes the `tx_id` from the set. -/
theorem C6_resolve_clears_dispute (a : Account) (t : ℕ) (a1 : Account) :
    (a.process_transaction ⟨.Resolve, a.client, t, none⟩ = (a1, none) →
      a.has_dispute t = true ∧ a1.has_dispute t = false ∧
      a1.process_transaction ⟨.Resolve, a.client, t, none⟩
        = (a1, some (.RuleViolation (.TrasactionNotOnDispute t)))) ∧
    (∀ a2, a.process_transaction ⟨.Chargeback, a.client, t, none⟩ = (a2, none) →
      a2.has_dispute t = false) := by
  constructor
  · intro h
    obtain ⟨hc, hf⟩ := process_ok_guards h
    obtain ⟨amt, hdep, hdisp, hb⟩ :=
      resolve_ok_inv (process_ok_resolve hc hf rfl h)
    subst hb
    refine ⟨hdisp, contains_removeDispute a.disputes t, ?_⟩
    exact process_resolve_fail_literal _ t amt hf hdep
      (contains_removeDispute a.disputes t)
  · intro a2 h
    obtain ⟨hc, hf⟩ := process_ok_guards h
    obtain ⟨amt, hdep, hdisp, hb⟩ :=
      chargeback_ok_inv (process_ok_chargeback hc hf rfl h)
    subst hb
    exact contains_removeDispute a.disputes t

/-- Witness for C6: resolving disputed deposit 1 clears the dispute and a
second resolve is rejected. -/
theorem C6_witness :
    (Account.mk 1 0 5 false [(1, 5)] [1]).process_transaction
        ⟨.Resolve, (Account.mk 1 0 5 false [(1, 5)] [1]).client, 1, none⟩
      = (((Account.mk 1 0 5 false [(1, 5)] [1]).process_transaction
            ⟨.Resolve, (Account.mk 1 0 5 false [(1, 5)] [1]).client, 1, none⟩).1,
         none) ∧
    ((Account.mk 1 0 5 false [(1, 5)] [1]).has_dispute 1 = true ∧
     ((Account.mk 1 0 5 false [(1, 5)] [1]).process_transaction
        ⟨.Resolve, (Account.mk 1 0 5 false [(1, 5)] [1]).client, 1, none⟩).1.has_dispute 1
       = false ∧
     ((Account.mk 1 0 5 false [(1, 5)] [1]).process_transaction
        ⟨.Resolve, (Account.mk 1 0 5 false [(1, 5)] [1]).client, 1, none⟩).1.process_transaction
          ⟨.Resolve, (Account.mk 1 0 5 false [(1, 5)] [1]).client, 1, none⟩
       = (((Account.mk 1 0 5 false [(1, 5)] [1]).process_transaction
            ⟨.Resolve, (Account.mk 1 0 5 false [(1, 5)] [1]).client, 1, none⟩).1,
          some (.RuleViolation (.TrasactionNotOnDispute 1)))) :=
  ⟨rfl,
   (C6_resolve_clears_dispute (Account.mk 1 0 5 false [(1, 5)] [1]) 1
      ((Account.mk 1 0 5 false [(1, 5)] [1]).process_transaction
        ⟨.Resolve, (Account.mk 1 0 5 false [(1, 5)] [1]).client, 1, none⟩).1).1 rfl⟩

/-! ### Claim C7 (corrected) -/

/-- Counterexample to C7 as stated: the claim quantifies over every account,
but on a frozen account a Dispute whose `tx_id` has no prior deposit fails
with `AccountFrozen`, not with `DepositNotFound(tx_id)` — the frozen guard
runs first. -/
theorem C7_counterexample :
    ((Account.mk 1 0 0 true [] []).process_transaction ⟨.Dispute, 1, 99, none⟩).2
        = some (.RuleViolation .AccountFrozen) ∧
    ((Account.mk 1 0 0 true [] []).process_transaction ⟨.Dispute, 1, 99, none⟩).2
        ≠ some (.RuleViolation (.DepositNotFound 99)) :=
  ⟨rfl, by decide⟩

/-- C7 (amended): on a non-frozen account, a Dispute/Resolve/Chargeback
naming that account's client id whose `tx_id` has no prior accepted deposit
fails with `DepositNotFound(tx_id)` and leaves the account unchanged; and a
Withdrawal never records anything in the deposits index. -/
theorem C7_missing_deposit_rejected (a : Account) (tx : Transaction)
    (hf : a.frozen = false) (hc : tx.client = a.client)
    (hdep : a.find_deposit tx.tx = none)
    (ht : tx.type = .Dispute ∨ tx.type = .Resolve ∨ tx.type = .Chargeback) :
    a.process_transaction tx
        = (a, some (.RuleViolation (.DepositNotFound tx.tx))) ∧
    ∀ (txw : Transaction) (p : Account × Option AccountError),
      txw.type = .Withdrawal → a.process_transaction txw = p →
      p.1.deposits = a.deposits := by
  constructor
  · rcases ht with ht | ht | ht
    · rw [process_dispute_eq a tx hc.symm hf ht, dispute_no_deposit a tx hdep]
      rfl
    · rw [process_resolve_eq a tx hc.symm hf ht, resolve_no_deposit a tx hdep]
      rfl
    · rw [process_chargeback_eq a tx hc.symm hf ht, chargeback_no_deposit a tx hdep]
      rfl
  · intro txw p htw hp
    rcases p with ⟨b, r⟩
    cases r with
    | none =>
        obtain ⟨hcw, hfw⟩ := process_ok_guards hp
        obtain ⟨amt, ham, hle, hb⟩ :=
          withdrawal_ok_inv (process_ok_withdrawal hcw hfw htw hp)
        subst hb
        rfl
    | some e =>
        have hba := process_error_unchanged a txw b e hp
        rw [hba]

/-- Witness for the amended C7: a Resolve of the never-deposited `tx_id` 99
fails with `DepositNotFound 99` on an unfrozen account. -/
theorem C7_witness :
    (Account.mk 1 3 0 false [] []).frozen = false ∧
    (Account.mk 1 3 0 false [] []).find_deposit 99 = none ∧
    (Account.mk 1 3 0 false [] []).process_transaction ⟨.Resolve, 1, 99, none⟩
      = (Account.mk 1 3 0 false [] [],
         some (.RuleViolation (.DepositNotFound 99))) :=
  ⟨rfl, rfl,
   (C7_missing_deposit_rejected (Account.mk 1 3 0 false [] [])
      ⟨.Resolve, 1, 99, none⟩ rfl rfl rfl (Or.inr (Or.inl rfl))).1⟩

/-! ### Claim C8: ingestion-time truncation to 4 decimal places -/

/-- A parsed decimal literal as `rust_decimal` stores it: an integer mantissa
and a fractional-digit count (scale); the value is `mantissa / 10^scale`. -/
structure DecimalRepr where
  mantissa : ℤ
  scale : ℕ
  deriving DecidableEq, Repr

/-- The rational value of a decimal representation. -/
def DecimalRepr.toRat (x : DecimalRepr) : ℚ :=
  (x.mantissa : ℚ) / 10 ^ x.scale

/-- Integer division of a (signed) mantissa by a positive power of ten with
the quotient taken toward zero, as dropping decimal digits does: the
magnitude is divided, the sign kept. -/
def truncTowardZero (m : ℤ) (n : ℕ) : ℤ :=
  if 0 ≤ m then m / n else -((-m) / n)

/-- `Decimal::round_dp_with_strategy(dp, RoundingStrategy::ToZero)`
(`src/model/transaction.rs`): a value with scale ≤ `dp` is returned
unchanged; otherwise the digits beyond `dp` are dropped toward zero. -/
def round_dp_with_strategy_to_zero (x : DecimalRepr) (dp : ℕ) : DecimalRepr :=
  if x.scale ≤ dp then x
  else ⟨truncTowardZero x.mantissa (10 ^ (x.scale - dp)), dp⟩

/-- `deserialize_amount_4_dp` (`src/model/transaction.rs`): every ingested
amount is rounded to 4 decimal places with strategy `ToZero`. -/
def deserialize_amount_4_dp (x : DecimalRepr) : DecimalRepr :=
  round_dp_with_strategy_to_zero x 4

/-- Spec-side truncation toward zero of a rational to an integer: the floor
for non-negative values, the ceiling for negative ones. -/
def ratTruncTowardZero (q : ℚ) : ℤ :=
  if 0 ≤ q then ⌊q⌋ else ⌈q⌉

lemma truncTowardZero_eq_ratTrunc (m : ℤ) (n : ℕ) (hn : 0 < n) :
    truncTowardZero m n = ratTruncTowardZero ((m : ℚ) / (n : ℚ)) := by
  unfold truncTowardZero ratTruncTowardZero
  rcases le_or_lt 0 m with hm | hm
  · rw [if_pos hm,
        if_pos (div_nonneg (by exact_mod_cast hm) (by positivity))]
    exact (Rat.floor_intCast_div_natCast m n).symm
  · have hq : ((m : ℚ) / (n : ℚ)) < 0 :=
      div_neg_of_neg_of_pos (by exact_mod_cast hm) (by exact_mod_cast hn)
    rw [if_neg (not_le.2 hm), if_neg (not_le.2 hq)]
    calc -((-m) / (n : ℤ))
        = -⌊(((-m : ℤ) : ℚ) / (n : ℚ))⌋ := by
          rw [Rat.floor_intCast_div_natCast]
      _ = -⌊-((m : ℚ) / (n : ℚ))⌋ := by
          push_cast
          rw [neg_div]
      _ = ⌈(m : ℚ) / (n : ℚ)⌉ := by
          rw [Int.floor_neg, neg_neg]

lemma abs_ratTrunc_le (p : ℚ) : |(ratTruncTowardZero p : ℚ)| ≤ |p| := by
  unfold ratTruncTowardZero
  split
  · next hp =>
      rw [abs_of_nonneg hp,
          abs_of_nonneg (by exact_mod_cast Int.floor_nonneg.2 hp)]
      exact Int.floor_le p
  · next hp =>
      have hp' : p < 0 := not_le.1 hp
      rw [abs_of_nonpos hp'.le,
          abs_of_nonpos
            (by exact_mod_cast Int.ceil_le.2 (by exact_mod_cast hp'.le))]
      simp only [neg_le_neg_iff]
      exact Int.le_ceil p

/-- C8: an ingested amount with at most 4 fractional digits is stored
exactly; one with more is truncated toward zero at scale 4 (the integer part
of `value·10^4`, floor for non-negative and ceiling for negative values,
divided by `10^4`); in particular the stored magnitude never exceeds the
ingested magnitude. -/
theorem C8_truncation_toward_zero (m : ℤ) (d : ℕ) :
    ((deserialize_amount_4_dp ⟨m, d⟩).toRat
      = if d ≤ 4 then (DecimalRepr.mk m d).toRat
        else ((ratTruncTowardZero ((DecimalRepr.mk m d).toRat * 10 ^ 4) : ℤ) : ℚ)
              / 10 ^ 4) ∧
    |(deserialize_amount_4_dp ⟨m, d⟩).toRat| ≤ |(DecimalRepr.mk m d).toRat| := by
  rcases le_or_lt d 4 with hd | hd
  · have hres : deserialize_amount_4_dp ⟨m, d⟩ = ⟨m, d⟩ := by
      simp [deserialize_amount_4_dp, round_dp_with_strategy_to_zero, hd]
    rw [hres, if_pos hd]
    exact ⟨rfl, le_refl _⟩
  · have hd' : ¬ d ≤ 4 := not_le.2 hd
    have hres : deserialize_amount_4_dp ⟨m, d⟩
        = ⟨truncTowardZero m (10 ^ (d - 4)), 4⟩ := by
      simp [deserialize_amount_4_dp, round_dp_with_strategy_to_zero, hd']
    have hkey : (DecimalRepr.mk m d).toRat * 10 ^ 4
        = (m : ℚ) / ((10 ^ (d - 4) : ℕ) : ℚ) := by
      unfold DecimalRepr.toRat
      push_cast
      rw [div_mul_eq_mul_div, div_eq_div_iff (by positivity) (by positivity)]
      have hdd : 4 + (d - 4) = d := by omega
      rw [mul_assoc, ← pow_add, hdd]
    have htr : truncTowardZero m (10 ^ (d - 4))
        = ratTruncTowardZero ((DecimalRepr.mk m d).toRat * 10 ^ 4) := by
      rw [hkey]
      exact truncTowardZero_eq_ratTrunc m (10 ^ (d - 4)) (by positivity)
    have hval : (deserialize_amount_4_dp ⟨m, d⟩).toRat
        = ((ratTruncTowardZero ((DecimalRepr.mk m d).toRat * 10 ^ 4) : ℤ) : ℚ)
            / 10 ^ 4 := by
      rw [hres]
      have hcast := congrArg (fun z : ℤ => (z : ℚ) / 10 ^ 4) htr
      simpa [DecimalRepr.toRat] using hcast
    refine ⟨by rw [hval, if_neg hd'], ?_⟩
    rw [hval, abs_div, abs_of_pos (show (0:ℚ) < 10 ^ 4 by positivity)]
    refine le_trans ((div_le_div_iff_of_pos_right (by positivity)).2
      (abs_ratTrunc_le ((DecimalRepr.mk m d).toRat * 10 ^ 4))) ?_
    rw [abs_mul, abs_of_pos (show (0:ℚ) < 10 ^ 4 by positivity),
        mul_div_assoc, div_self (by norm_num : ((10:ℚ) ^ 4) ≠ 0), mul_one]

/-! ### Claim C9: the input boundary -/

/-- A tabular input record after field lexing: the kind tag, the two ids,
and the raw decimal amount text (as mantissa/scale) or nothing when the
amount column is absent/empty. -/
structure RawRecord where
  type : TransactionType
  client : ℕ
  tx : ℕ
  amount : Option DecimalRepr
  deriving DecidableEq, Repr

/-- Modelled from the spec: the final `Transaction` deserialization
(`src/model/transaction.rs` of the final iteration; the snapshot holds an
older iteration whose `amount` field is not optional).  Per the spec, the
`amount` column is optional — present for deposit/withdrawal, absent for
dispute/resolve/chargeback — and a present amount is truncated to 4
fractional digits toward zero; a missing amount is not a deserialization
error (the rule engine's `require_amount` handles it later). -/
def recordToTransaction (r : RawRecord) : Option Transaction :=
  some { type := r.type, client := r.client, tx := r.tx,
         amount := r.amount.map fun x => (deserialize_amount_4_dp x).toRat }

/-- C9: a dispute/resolve/chargeback record with no amount field maps
successfully to a `Transaction` whose amount is `none` — such records are
not rejected at the input boundary. -/
theorem C9_amount_optional (r : RawRecord)
    (ha : r.amount = none)
    (ht : r.type = .Dispute ∨ r.type = .Resolve ∨ r.type = .Chargeback) :
    ∃ t : Transaction, recordToTransaction r = some t ∧ t.amount = none := by
  refine ⟨{ type := r.type, client := r.client, tx := r.tx, amount := none }, ?_, rfl⟩
  rw [recordToTransaction, ha]
  rfl

/-- Witness for C9: a chargeback record without an amount deserializes. -/
theorem C9_witness :
    (RawRecord.mk .Chargeback 1 7 none).amount = none ∧
    ((RawRecord.mk .Chargeback 1 7 none).type = .Dispute ∨
     (RawRecord.mk .Chargeback 1 7 none).type = .Resolve ∨
     (RawRecord.mk .Chargeback 1 7 none).type = .Chargeback) ∧
    ∃ t : Transaction,
      recordToTransaction (RawRecord.mk .Chargeback 1 7 none) = some t ∧
      t.amount = none :=
  ⟨rfl, Or.inr (Or.inr rfl),
   C9_amount_optional (RawRecord.mk .Chargeback 1 7 none) rfl
     (Or.inr (Or.inr rfl))⟩

/-! ### Claim C10 -/

/-- C10: Dispute performs no sufficient-funds check — after Deposit 5 under
`tx_id` 1, Withdrawal 5, then Dispute of 1 (all successful), `available` is
−5 and `held` is 5, so non-negativity of `available` is not an invariant. -/
theorem C10_dispute_can_go_negative :
    ∃ a1 a2 a3 : Account,
      (Account.new 1).process_transaction ⟨.Deposit, 1, 1, some 5⟩ = (a1, none) ∧
      a1.process_transaction ⟨.Withdrawal, 1, 2, some 5⟩ = (a2, none) ∧
      a2.process_transaction ⟨.Dispute, 1, 1, none⟩ = (a3, none) ∧
      a3.available = -5 ∧ a3.held = 5 ∧ a3.available < 0 := by
  refine ⟨Account.mk 1 5 0 false [(1, 5)] [], Account.mk 1 0 0 false [(1, 5)] [],
          Account.mk 1 (-5) 5 false [(1, 5)] [1], ?_, ?_, ?_, rfl, rfl, ?_⟩
  · simp [Account.process_transaction, check_not_frozen, Account.new,
          Account.deposit, require_amount]
  · simp [Account.process_transaction, check_not_frozen, Account.withdrawal,
          require_amount, check_sufficient_funds]
  · simp [Account.process_transaction, check_not_frozen, Account.dispute,
          get_deposit_amount, Account.find_deposit, List.lookup, insertDispute]
  · norm_num
